import Mathlib

/-!
Verification of the rediminute connection-lifecycle manager
(`src/rediminute/server.py`) against its natural-language specification.

The Python source is shallowly embedded as executable Lean functions:

* the per-line echo transform `data.decode().strip()` + `"\n"` becomes
  `respFor` over `List Char`, with `pyIsSpace` the whitespace predicate of
  Python's `str.strip`;
* the mutable server object (`is_running`, the `self.clients` dict keyed by
  `StreamWriter`, the transports' `is_closing` flags, the listening socket)
  becomes the record `ServerState`, with writers identified by `Nat` keys,
  the dict split into the key set `registry` and the object store `conns`
  (Python objects outlive their dict entry), and transports as a
  `Nat → Bool` map of `is_closing` flags;
* each method (`_handle_client`, `_process_client_messages`,
  `_close_client_connection`, `_periodic_cleanup`, `stop`, `start`) becomes
  an explicit state-passing function; the network is a trace of events with
  inter-arrival gaps, and `asyncio.wait_for(readline, idle_timeout)` times
  out exactly when a gap exceeds the timeout.
-/

namespace Rediminute

/-- Whitespace stripped by Python's `str.strip()`: the code points for which
`str.isspace` holds (ASCII whitespace, the C1 and Unicode space separators). -/
def pyIsSpace (c : Char) : Bool :=
  c.toNat ∈ [9, 10, 11, 12, 13, 28, 29, 30, 31, 32, 133, 160, 0x1680,
    0x2000, 0x2001, 0x2002, 0x2003, 0x2004, 0x2005, 0x2006, 0x2007, 0x2008,
    0x2009, 0x200a, 0x2028, 0x2029, 0x202f, 0x205f, 0x3000]

/-- Removal of trailing whitespace, the right half of `str.strip()`. -/
def rstrip (l : List Char) : List Char :=
  (l.reverse.dropWhile pyIsSpace).reverse

/-- Python's `str.strip()` on a decoded line: drop leading and trailing
whitespace. -/
def pyStrip (l : List Char) : List Char :=
  rstrip (l.dropWhile pyIsSpace)

/-- The bytes written back for one received message `m` (`m` is the line
content, without its delimiter): `server.py` line 294/298 computes
`message = data.decode().strip()` on `data = m ++ "\n"` and writes
`f"{message}\n"`. -/
def respFor (m : List Char) : List Char :=
  pyStrip (m ++ ['\n']) ++ ['\n']

/-- `ConnectionState` from `server.py`: `CONNECTED` / `DISCONNECTED`
(the spec's `Active` / `Closed`). -/
inductive ConnectionState where
  | connected
  | disconnected
deriving DecidableEq

/-- `ClientConnection` from `server.py` (its `writer` back-reference and
`address` carry no lifecycle information and are omitted; timestamps are
naturals). -/
structure ClientConnection where
  connectedAt : Nat
  lastActiveAt : Nat
  state : ConnectionState
deriving DecidableEq

/-- The mutable state of a `RediminuteServer` object together with the
transport layer.  `registry` is the key set of the `self.clients` dict
(writers are identified by `Nat`); `conns` is the store of
`ClientConnection` objects (a Python object outlives its dict entry, so the
store is total); `transports w` is `writer.is_closing()` for writer `w`;
`serverOpen` is whether the listening socket (`self.server`) is open;
`sweeperActive` is whether `self.cleanup_task` is alive. -/
structure ServerState where
  isRunning : Bool
  serverOpen : Bool
  sweeperActive : Bool
  registry : List Nat
  conns : Nat → ClientConnection
  transports : Nat → Bool

/-- `self.clients[writer] = ClientConnection(writer=writer, address=addr)`
(`server.py` line 245): dict assignment — the key is added if absent and the
stored object is replaced by a fresh `CONNECTED` one either way. -/
def register_client (w now : Nat) (s : ServerState) : ServerState :=
  { s with
    registry := if w ∈ s.registry then s.registry else w :: s.registry,
    conns := fun v => if v = w then
        { connectedAt := now, lastActiveAt := now,
          state := ConnectionState.connected }
      else s.conns v }

/-- `if writer in self.clients: self.clients[writer].update_activity()`
(`server.py` lines 290-291). -/
def update_activity (w t : Nat) (s : ServerState) : ServerState :=
  if w ∈ s.registry then
    { s with conns := fun v => if v = w then
        { s.conns w with lastActiveAt := t }
      else s.conns v }
  else s

/-- `_close_client_connection` (`server.py` lines 207-226): close the
transport unless it is already closing, then — in the `finally` block — mark
the connection `DISCONNECTED` if the writer is still in `self.clients`. -/
def close_client_connection (s : ServerState) (w : Nat) : ServerState :=
  let ts := if s.transports w then s.transports
    else fun v => if v = w then true else s.transports v
  let cs := if w ∈ s.registry then
      fun v => if v = w then
        { s.conns w with state := ConnectionState.disconnected }
      else s.conns v
    else s.conns
  { s with transports := ts, conns := cs }

/-- `if writer in self.clients: del self.clients[writer]` (`server.py`
lines 255-256): guarded removal, absence is not an error. -/
def unregister_client (s : ServerState) (w : Nat) : ServerState :=
  if w ∈ s.registry then { s with registry := s.registry.erase w } else s

/-- The close path executed by the `_handle_client` `finally` block (and by
each Sweeper eviction): `_close_client_connection` followed by guarded
removal from `self.clients`. -/
def close_path (s : ServerState) (w : Nat) : ServerState :=
  unregister_client (close_client_connection s w) w

/-- Whether the listener accepts connections: the asyncio server accepts
exactly while its listening socket is open (`self.server.close()` is what
stops acceptance; `is_running` does not gate the accept loop). -/
def canAccept (s : ServerState) : Bool :=
  s.serverOpen

/-- The first statements of `stop()` (`server.py` lines 136-143):
`self.is_running = False` and cancellation of `self.cleanup_task`. -/
def stopped_flags (s : ServerState) : ServerState :=
  { s with isRunning := false, sweeperActive := false }

/-- `stop()` lines 146-152: build `close_tasks` for every client in
`list(self.clients.values())` whose state is `CONNECTED` and await
`asyncio.gather(*close_tasks, return_exceptions=True)` (modelled as a
sequential fold; `gather` collects per-session errors instead of
propagating them). -/
def close_all_connected (s : ServerState) : ServerState :=
  (s.registry.filter fun w =>
    decide ((s.conns w).state = ConnectionState.connected)).foldl
    close_client_connection s

/-- The prefix of `stop()` (`server.py` lines 133-155) before
`self.server.close()`: early-return if not running; set `is_running` to
`False`; cancel the cleanup task; close every registered `CONNECTED`
connection; clear the clients dict (`self.clients.clear()`).  The
listening socket is untouched by this phase. -/
def stop_drain (s : ServerState) : ServerState :=
  { close_all_connected (stopped_flags s) with registry := [] }

/-- `stop()` (`server.py` lines 127-162): the drain phase above, then
`self.server.close()` / `wait_closed()` as the final step. -/
def stop (s : ServerState) : ServerState :=
  if s.isRunning then { stop_drain s with serverOpen := false } else s

/-- `start()` up to its bind (`server.py` lines 92-116): `self.is_running =
True` is executed first (line 101), then `asyncio.start_server` is awaited;
on bind failure the `OSError` propagates out of `start()`.  The returned
`Bool` records whether the bind error was raised. -/
def start_bind (s : ServerState) (bindOk : Bool) : ServerState × Bool :=
  let s1 := { s with isRunning := true }
  if bindOk then
    ({ s1 with serverOpen := true, sweeperActive := true }, false)
  else (s1, true)

/-- The staleness test of `_periodic_cleanup` (`server.py` lines 182-184):
`client.state == DISCONNECTED or client.idle_time > self.idle_timeout or
writer.is_closing()`, with `idle_time = now - last_active_at`. -/
def staleCheck (T now : Nat) (s : ServerState) (w : Nat) : Bool :=
  decide ((s.conns w).state = ConnectionState.disconnected)
    || decide (T < now - (s.conns w).lastActiveAt)
    || s.transports w

/-- One eviction of the Sweeper (`server.py` lines 190-193):
`_close_client_connection(writer)` then `del self.clients[writer]`. -/
def evict_one (s : ServerState) (w : Nat) : ServerState :=
  let c := close_client_connection s w
  { c with registry := c.registry.erase w }

/-- The eviction loop over the stale snapshot (`server.py` lines 188-193),
with a fault model: `faults` is the set of writers whose eviction raises.
A raised exception propagates out of the `for` loop to the pass-level
`except Exception` handler (line 203), so the remaining snapshot entries of
this pass are abandoned and the state mutated so far is kept. -/
def evict_loop (faults : List Nat) : List Nat → ServerState → ServerState
  | [], s => s
  | w :: rest, s =>
    if w ∈ s.registry then
      if w ∈ faults then s
      else evict_loop faults rest (evict_one s w)
    else evict_loop faults rest s

/-- One pass of `_periodic_cleanup` (`server.py` lines 171-198): guarded by
`while self.is_running`, scan `list(self.clients.items())` for stale
entries, then evict them. -/
def sweep_pass (faults : List Nat) (T now : Nat) (s : ServerState) :
    ServerState :=
  if s.isRunning then
    evict_loop faults (s.registry.filter (staleCheck T now s)) s
  else s

/-- One successful arrival on a session's stream: after `gap` seconds of
silence since the previous loop iteration began, `readline` returns
`line ++ "\n"` (for the final unterminated line of a stream, just `line`;
the code treats both alike). -/
structure NetData where
  gap : Nat
  line : List Char
deriving DecidableEq

/-- How a session's event trace ends after its data arrivals: the peer
closes (`readline` returns `b""` after `gap` seconds), a
`ConnectionError` surfaces, some other exception is raised while handling
the iteration (e.g. a processor/decode fault), or the peer goes silent
forever. -/
inductive EndEvent where
  | eof (gap : Nat)
  | connErr (gap : Nat)
  | exc (gap : Nat)
  | silence
deriving DecidableEq

/-- Why `_process_client_messages` returned: the `while self.is_running`
guard failed, `asyncio.TimeoutError` (line 301), empty read (line 286),
`ConnectionError` (line 304), or the catch-all `except Exception`
(line 307). -/
inductive ExitReason where
  | stopped
  | timeout
  | eof
  | connError
  | fault
deriving DecidableEq

/-- The trace-ending step of `_process_client_messages`: each terminal event
is still raced against the `idle_timeout` read deadline (a late event means
the timeout fires first); eternal silence always times out. -/
def end_case (T : Nat) (e : EndEvent) (s : ServerState) :
    ServerState × List (List Char) × ExitReason :=
  match e with
  | EndEvent.eof g =>
    if T < g then (s, [], ExitReason.timeout) else (s, [], ExitReason.eof)
  | EndEvent.connErr g =>
    if T < g then (s, [], ExitReason.timeout) else (s, [], ExitReason.connError)
  | EndEvent.exc g =>
    if T < g then (s, [], ExitReason.timeout) else (s, [], ExitReason.fault)
  | EndEvent.silence => (s, [], ExitReason.timeout)

/-- `_process_client_messages` (`server.py` lines 264-309) for writer `w`
against the event trace `datas` ending in `e`, starting at time `t`: while
`self.is_running`, await one line with `asyncio.wait_for(readline,
idle_timeout)` — timing out if the next event's gap exceeds `T` — then
update the session's activity timestamp and write `respFor line` back.
Returns the final state, the list of responses written, and the exit
reason. -/
def process_messages (T w : Nat) :
    List NetData → EndEvent → Nat → ServerState →
    ServerState × List (List Char) × ExitReason
  | [], e, _, s =>
    if s.isRunning then end_case T e s else (s, [], ExitReason.stopped)
  | d :: rest, e, t, s =>
    if s.isRunning then
      if T < d.gap then (s, [], ExitReason.timeout)
      else
        let t2 := t + d.gap
        let s2 := update_activity w t2 s
        let r := process_messages T w rest e t2 s2
        (r.1, respFor d.line :: r.2.1, r.2.2)
    else (s, [], ExitReason.stopped)

/-- `_handle_client` (`server.py` lines 228-262): register a fresh
`ClientConnection`, run `_process_client_messages` (whose internal handlers
catch every per-iteration exception), and in the `finally` block run
`_close_client_connection` followed by guarded removal from
`self.clients`. -/
def handle_client (T w t0 : Nat) (datas : List NetData) (e : EndEvent)
    (s : ServerState) : ServerState × List (List Char) × ExitReason :=
  let s1 := register_client w t0 s
  let r := process_messages T w datas e t0 s1
  (close_path r.1 w, r.2.1, r.2.2)

/-! Projection lemmas for the state operations. -/

theorem register_client_registry_of_mem (w now : Nat) (s : ServerState)
    (h : w ∈ s.registry) : (register_client w now s).registry = s.registry := by
  simp [register_client, h]

theorem register_client_mem (w now : Nat) (s : ServerState) :
    w ∈ (register_client w now s).registry := by
  by_cases h : w ∈ s.registry <;> simp [register_client, h]

theorem register_client_nodup (w now : Nat) (s : ServerState)
    (h : s.registry.Nodup) : (register_client w now s).registry.Nodup := by
  by_cases hw : w ∈ s.registry <;> simp [register_client, hw, h]

theorem register_client_mem_iff_of_ne (w now v : Nat) (s : ServerState)
    (h : v ≠ w) :
    (v ∈ (register_client w now s).registry ↔ v ∈ s.registry) := by
  by_cases hw : w ∈ s.registry <;> simp [register_client, hw, h]

theorem register_client_conns_ne (w now v : Nat) (s : ServerState)
    (h : v ≠ w) : (register_client w now s).conns v = s.conns v := by
  simp [register_client, h]

theorem register_client_transports (w now : Nat) (s : ServerState) :
    (register_client w now s).transports = s.transports := rfl

theorem register_client_isRunning (w now : Nat) (s : ServerState) :
    (register_client w now s).isRunning = s.isRunning := rfl

theorem update_activity_registry (w t : Nat) (s : ServerState) :
    (update_activity w t s).registry = s.registry := by
  unfold update_activity; split <;> rfl

theorem update_activity_transports (w t : Nat) (s : ServerState) :
    (update_activity w t s).transports = s.transports := by
  unfold update_activity; split <;> rfl

theorem update_activity_isRunning (w t : Nat) (s : ServerState) :
    (update_activity w t s).isRunning = s.isRunning := by
  unfold update_activity; split <;> rfl

theorem update_activity_conns_ne (w t v : Nat) (s : ServerState)
    (h : v ≠ w) : (update_activity w t s).conns v = s.conns v := by
  unfold update_activity; split <;> simp [h]

theorem ccc_registry (s : ServerState) (w : Nat) :
    (close_client_connection s w).registry = s.registry := rfl

theorem ccc_isRunning (s : ServerState) (w : Nat) :
    (close_client_connection s w).isRunning = s.isRunning := rfl

theorem ccc_serverOpen (s : ServerState) (w : Nat) :
    (close_client_connection s w).serverOpen = s.serverOpen := rfl

theorem ccc_transports_self (s : ServerState) (w : Nat) :
    (close_client_connection s w).transports w = true := by
  by_cases h : s.transports w <;> simp [close_client_connection, h]

theorem ccc_transports_ne (s : ServerState) (w v : Nat) (h : v ≠ w) :
    (close_client_connection s w).transports v = s.transports v := by
  by_cases hw : s.transports w <;> simp [close_client_connection, hw, h]

theorem ccc_transports_mono (s : ServerState) (w v : Nat)
    (h : s.transports v = true) :
    (close_client_connection s w).transports v = true := by
  by_cases hv : v = w
  · subst hv; exact ccc_transports_self s v
  · rw [ccc_transports_ne s w v hv]; exact h

theorem ccc_conns_ne (s : ServerState) (w v : Nat) (h : v ≠ w) :
    (close_client_connection s w).conns v = s.conns v := by
  by_cases hw : w ∈ s.registry <;> simp [close_client_connection, hw, h]

theorem ccc_conns_self_of_mem (s : ServerState) (w : Nat)
    (h : w ∈ s.registry) :
    (close_client_connection s w).conns w =
      { s.conns w with state := ConnectionState.disconnected } := by
  simp [close_client_connection, h]

theorem ccc_conns_self_of_not_mem (s : ServerState) (w : Nat)
    (h : w ∉ s.registry) :
    (close_client_connection s w).conns w = s.conns w := by
  simp [close_client_connection, h]

theorem ccc_eq_self (s : ServerState) (w : Nat)
    (h1 : s.transports w = true) (h2 : w ∉ s.registry) :
    close_client_connection s w = s := by
  simp [close_client_connection, h1, h2]

theorem unregister_client_conns (s : ServerState) (w : Nat) :
    (unregister_client s w).conns = s.conns := by
  unfold unregister_client; split <;> rfl

theorem unregister_client_transports (s : ServerState) (w : Nat) :
    (unregister_client s w).transports = s.transports := by
  unfold unregister_client; split <;> rfl

theorem unregister_client_isRunning (s : ServerState) (w : Nat) :
    (unregister_client s w).isRunning = s.isRunning := by
  unfold unregister_client; split <;> rfl

theorem unregister_client_not_mem (s : ServerState) (w : Nat)
    (hnd : s.registry.Nodup) : w ∉ (unregister_client s w).registry := by
  unfold unregister_client
  split
  · simp [hnd.mem_erase_iff]
  · assumption

theorem unregister_client_mem_iff_of_ne (s : ServerState) (w v : Nat)
    (h : v ≠ w) : (v ∈ (unregister_client s w).registry ↔ v ∈ s.registry) := by
  unfold unregister_client
  split
  · simpa using List.mem_erase_of_ne h
  · exact Iff.rfl

theorem unregister_client_of_not_mem (s : ServerState) (w : Nat)
    (h : w ∉ s.registry) : unregister_client s w = s := by
  simp [unregister_client, h]

theorem end_case_state (T : Nat) (e : EndEvent) (s : ServerState) :
    (end_case T e s).1 = s := by
  cases e <;> simp [end_case] <;> split <;> rfl

theorem process_messages_registry (T w : Nat) (datas : List NetData)
    (e : EndEvent) (t : Nat) (s : ServerState) :
    (process_messages T w datas e t s).1.registry = s.registry := by
  induction datas generalizing t s with
  | nil =>
    by_cases h : s.isRunning <;> simp [process_messages, h, end_case_state]
  | cons d rest ih =>
    by_cases h : s.isRunning
    · by_cases hg : T < d.gap
      · simp [process_messages, h, hg]
      · simp only [process_messages, h, if_true, hg, if_false]
        rw [ih]
        exact update_activity_registry _ _ _
    · simp [process_messages, h]

theorem process_messages_transports (T w : Nat) (datas : List NetData)
    (e : EndEvent) (t : Nat) (s : ServerState) :
    (process_messages T w datas e t s).1.transports = s.transports := by
  induction datas generalizing t s with
  | nil =>
    by_cases h : s.isRunning <;> simp [process_messages, h, end_case_state]
  | cons d rest ih =>
    by_cases h : s.isRunning
    · by_cases hg : T < d.gap
      · simp [process_messages, h, hg]
      · simp only [process_messages, h, if_true, hg, if_false]
        rw [ih]
        exact update_activity_transports _ _ _
    · simp [process_messages, h]

theorem process_messages_isRunning (T w : Nat) (datas : List NetData)
    (e : EndEvent) (t : Nat) (s : ServerState) :
    (process_messages T w datas e t s).1.isRunning = s.isRunning := by
  induction datas generalizing t s with
  | nil =>
    by_cases h : s.isRunning <;> simp [process_messages, h, end_case_state]
  | cons d rest ih =>
    by_cases h : s.isRunning
    · by_cases hg : T < d.gap
      · simp [process_messages, h, hg]
      · simp only [process_messages, h, if_true, hg, if_false]
        rw [ih, update_activity_isRunning]
        exact h
    · simp [process_messages, h]

theorem process_messages_conns_ne (T w : Nat) (datas : List NetData)
    (e : EndEvent) (t : Nat) (s : ServerState) (v : Nat) (hv : v ≠ w) :
    (process_messages T w datas e t s).1.conns v = s.conns v := by
  induction datas generalizing t s with
  | nil =>
    by_cases h : s.isRunning <;> simp [process_messages, h, end_case_state]
  | cons d rest ih =>
    by_cases h : s.isRunning
    · by_cases hg : T < d.gap
      · simp [process_messages, h, hg]
      · simp only [process_messages, h, if_true, hg, if_false]
        rw [ih]
        exact update_activity_conns_ne _ _ _ _ hv
    · simp [process_messages, h]

theorem close_path_not_mem (s : ServerState) (w : Nat)
    (hnd : s.registry.Nodup) : w ∉ (close_path s w).registry := by
  unfold close_path
  exact unregister_client_not_mem _ w (by rw [ccc_registry]; exact hnd)

theorem close_path_mem_iff_of_ne (s : ServerState) (w v : Nat) (h : v ≠ w) :
    (v ∈ (close_path s w).registry ↔ v ∈ s.registry) := by
  unfold close_path
  rw [unregister_client_mem_iff_of_ne _ _ _ h, ccc_registry]

theorem close_path_transports_self (s : ServerState) (w : Nat) :
    (close_path s w).transports w = true := by
  unfold close_path
  rw [unregister_client_transports]
  exact ccc_transports_self s w

theorem close_path_transports_ne (s : ServerState) (w v : Nat) (h : v ≠ w) :
    (close_path s w).transports v = s.transports v := by
  unfold close_path
  rw [unregister_client_transports]
  exact ccc_transports_ne s w v h

theorem close_path_conns_ne (s : ServerState) (w v : Nat) (h : v ≠ w) :
    (close_path s w).conns v = s.conns v := by
  unfold close_path
  rw [unregister_client_conns]
  exact ccc_conns_ne s w v h

theorem close_path_conns_self_of_mem (s : ServerState) (w : Nat)
    (h : w ∈ s.registry) :
    ((close_path s w).conns w).state = ConnectionState.disconnected := by
  unfold close_path
  rw [unregister_client_conns, ccc_conns_self_of_mem s w h]

theorem evict_one_registry (s : ServerState) (w : Nat) :
    (evict_one s w).registry = s.registry.erase w := rfl

theorem evict_one_conns_ne (s : ServerState) (w v : Nat) (h : v ≠ w) :
    (evict_one s w).conns v = s.conns v := by
  unfold evict_one
  exact ccc_conns_ne s w v h

theorem evict_one_transports_ne (s : ServerState) (w v : Nat) (h : v ≠ w) :
    (evict_one s w).transports v = s.transports v := by
  unfold evict_one
  exact ccc_transports_ne s w v h

theorem evict_one_transports_self (s : ServerState) (w : Nat) :
    (evict_one s w).transports w = true := by
  unfold evict_one
  exact ccc_transports_self s w

theorem evict_one_transports_mono (s : ServerState) (w v : Nat)
    (h : s.transports v = true) : (evict_one s w).transports v = true := by
  unfold evict_one
  exact ccc_transports_mono s w v h

theorem evict_one_isRunning (s : ServerState) (w : Nat) :
    (evict_one s w).isRunning = s.isRunning := rfl

theorem evict_one_nodup (s : ServerState) (w : Nat)
    (hnd : s.registry.Nodup) : (evict_one s w).registry.Nodup := by
  rw [evict_one_registry]
  exact hnd.erase w

theorem evict_loop_isRunning (faults ws : List Nat) (s : ServerState) :
    (evict_loop faults ws s).isRunning = s.isRunning := by
  induction ws generalizing s with
  | nil => rfl
  | cons w rest ih =>
    by_cases hm : w ∈ s.registry
    · by_cases hf : w ∈ faults
      · simp [evict_loop, hm, hf]
      · simp only [evict_loop, hm, if_true, hf, if_false]
        rw [ih, evict_one_isRunning]
    · simp only [evict_loop, hm, if_false]
      exact ih s

theorem evict_loop_mem_registry (faults ws : List Nat) (s : ServerState)
    (v : Nat) (h : v ∈ (evict_loop faults ws s).registry) :
    v ∈ s.registry := by
  induction ws generalizing s with
  | nil => exact h
  | cons w rest ih =>
    by_cases hm : w ∈ s.registry
    · by_cases hf : w ∈ faults
      · simpa [evict_loop, hm, hf] using h
      · simp only [evict_loop, hm, if_true, hf, if_false] at h
        have := ih _ h
        rw [evict_one_registry] at this
        exact List.mem_of_mem_erase this
    · simp only [evict_loop, hm, if_false] at h
      exact ih s h

theorem evict_loop_nodup (faults ws : List Nat) (s : ServerState)
    (hnd : s.registry.Nodup) : (evict_loop faults ws s).registry.Nodup := by
  induction ws generalizing s with
  | nil => exact hnd
  | cons w rest ih =>
    by_cases hm : w ∈ s.registry
    · by_cases hf : w ∈ faults
      · simpa [evict_loop, hm, hf] using hnd
      · simp only [evict_loop, hm, if_true, hf, if_false]
        exact ih _ (evict_one_nodup s w hnd)
    · simp only [evict_loop, hm, if_false]
      exact ih s hnd

theorem evict_loop_untouched (faults ws : List Nat) (s : ServerState)
    (v : Nat) (hv : v ∉ ws) :
    (evict_loop faults ws s).conns v = s.conns v ∧
    (evict_loop faults ws s).transports v = s.transports v ∧
    (v ∈ (evict_loop faults ws s).registry ↔ v ∈ s.registry) := by
  induction ws generalizing s with
  | nil => exact ⟨rfl, rfl, Iff.rfl⟩
  | cons w rest ih =>
    have hvw : v ≠ w := fun h => hv (h ▸ List.mem_cons_self w rest)
    have hvr : v ∉ rest := fun h => hv (List.mem_cons_of_mem w h)
    by_cases hm : w ∈ s.registry
    · by_cases hf : w ∈ faults
      · simp [evict_loop, hm, hf]
      · simp only [evict_loop, hm, if_true, hf, if_false]
        obtain ⟨h1, h2, h3⟩ := ih (evict_one s w) hvr
        refine ⟨?_, ?_, ?_⟩
        · rw [h1]; exact evict_one_conns_ne s w v hvw
        · rw [h2]; exact evict_one_transports_ne s w v hvw
        · rw [h3, evict_one_registry]
          exact List.mem_erase_of_ne hvw
    · simp only [evict_loop, hm, if_false]
      exact ih s hvr

theorem evict_loop_transports_mono (faults ws : List Nat) (s : ServerState)
    (v : Nat) (h : s.transports v = true) :
    (evict_loop faults ws s).transports v = true := by
  induction ws generalizing s with
  | nil => exact h
  | cons w rest ih =>
    by_cases hm : w ∈ s.registry
    · by_cases hf : w ∈ faults
      · simpa [evict_loop, hm, hf] using h
      · simp only [evict_loop, hm, if_true, hf, if_false]
        exact ih _ (evict_one_transports_mono s w v h)
    · simp only [evict_loop, hm, if_false]
      exact ih s h

theorem evict_loop_evicts (ws : List Nat) (s : ServerState) (v : Nat)
    (hnd : s.registry.Nodup) (hv : v ∈ ws) :
    v ∉ (evict_loop [] ws s).registry := by
  induction ws generalizing s with
  | nil => exact absurd hv (List.not_mem_nil v)
  | cons w rest ih =>
    by_cases hm : w ∈ s.registry
    · simp only [evict_loop, hm, if_true, List.not_mem_nil, if_false]
      by_cases hvw : v = w
      · subst hvw
        intro hc
        have := evict_loop_mem_registry [] rest (evict_one s v) v hc
        rw [evict_one_registry] at this
        exact (hnd.mem_erase_iff.mp this).1 rfl
      · have hvr : v ∈ rest := by
          cases List.mem_cons.mp hv with
          | inl h => exact absurd h hvw
          | inr h => exact h
        exact ih _ (evict_one_nodup s w hnd) hvr
    · simp only [evict_loop, hm, if_false]
      by_cases hvw : v = w
      · subst hvw
        intro hc
        exact hm (evict_loop_mem_registry [] rest s v hc)
      · have hvr : v ∈ rest := by
          cases List.mem_cons.mp hv with
          | inl h => exact absurd h hvw
          | inr h => exact h
        exact ih s hnd hvr

theorem evict_loop_closes (ws : List Nat) (s : ServerState) (v : Nat)
    (hnd : s.registry.Nodup) (hv : v ∈ ws) (hm : v ∈ s.registry) :
    (evict_loop [] ws s).transports v = true := by
  induction ws generalizing s with
  | nil => exact absurd hv (List.not_mem_nil v)
  | cons w rest ih =>
    by_cases hw : w ∈ s.registry
    · simp only [evict_loop, hw, if_true, List.not_mem_nil, if_false]
      by_cases hvw : v = w
      · subst hvw
        exact evict_loop_transports_mono [] rest _ v
          (evict_one_transports_self s v)
      · have hvr : v ∈ rest := by
          cases List.mem_cons.mp hv with
          | inl h => exact absurd h hvw
          | inr h => exact h
        have hm2 : v ∈ (evict_one s w).registry := by
          rw [evict_one_registry]
          exact (List.mem_erase_of_ne hvw).mpr hm
        exact ih _ (evict_one_nodup s w hnd) hvr hm2
    · simp only [evict_loop, hw, if_false]
      by_cases hvw : v = w
      · subst hvw; exact absurd hm hw
      · have hvr : v ∈ rest := by
          cases List.mem_cons.mp hv with
          | inl h => exact absurd h hvw
          | inr h => exact h
        exact ih s hnd hvr hm

theorem evict_loop_survivor_untouched (faults ws : List Nat)
    (s : ServerState) (v : Nat) (hnd : s.registry.Nodup)
    (h : v ∈ (evict_loop faults ws s).registry) :
    (evict_loop faults ws s).conns v = s.conns v ∧
    (evict_loop faults ws s).transports v = s.transports v := by
  induction ws generalizing s with
  | nil => exact ⟨rfl, rfl⟩
  | cons w rest ih =>
    by_cases hm : w ∈ s.registry
    · by_cases hf : w ∈ faults
      · simp [evict_loop, hm, hf]
      · simp only [evict_loop, hm, if_true, hf, if_false] at h ⊢
        have hvw : v ≠ w := by
          intro hvw
          subst hvw
          have := evict_loop_mem_registry faults rest (evict_one s v) v h
          rw [evict_one_registry] at this
          exact (hnd.mem_erase_iff.mp this).1 rfl
        obtain ⟨h1, h2⟩ := ih (evict_one s w) (evict_one_nodup s w hnd) h
        constructor
        · rw [h1]; exact evict_one_conns_ne s w v hvw
        · rw [h2]; exact evict_one_transports_ne s w v hvw
    · simp only [evict_loop, hm, if_false] at h ⊢
      exact ih s hnd h

theorem sweep_pass_run (faults : List Nat) (T now : Nat) (s : ServerState)
    (h : s.isRunning = true) :
    sweep_pass faults T now s =
      evict_loop faults (s.registry.filter (staleCheck T now s)) s := by
  simp [sweep_pass, h]

theorem sweep_pass_isRunning (faults : List Nat) (T now : Nat)
    (s : ServerState) :
    (sweep_pass faults T now s).isRunning = s.isRunning := by
  unfold sweep_pass
  split
  · rw [evict_loop_isRunning]
  · rfl

theorem sweep_pass_nodup (faults : List Nat) (T now : Nat) (s : ServerState)
    (hnd : s.registry.Nodup) : (sweep_pass faults T now s).registry.Nodup := by
  unfold sweep_pass
  split
  · exact evict_loop_nodup _ _ _ hnd
  · exact hnd

theorem sweep_pass_mem_registry (faults : List Nat) (T now : Nat)
    (s : ServerState) (v : Nat)
    (h : v ∈ (sweep_pass faults T now s).registry) : v ∈ s.registry := by
  unfold sweep_pass at h
  split at h
  · exact evict_loop_mem_registry _ _ _ _ h
  · exact h

theorem sweep_pass_survivor_untouched (faults : List Nat) (T now : Nat)
    (s : ServerState) (v : Nat) (hnd : s.registry.Nodup)
    (h : v ∈ (sweep_pass faults T now s).registry) :
    (sweep_pass faults T now s).conns v = s.conns v ∧
    (sweep_pass faults T now s).transports v = s.transports v := by
  unfold sweep_pass at h ⊢
  split at h
  · next hr =>
    simp only [hr, if_true] at h ⊢
    exact evict_loop_survivor_untouched _ _ _ _ hnd h
  · next hr =>
    simp only [hr, if_false]
    exact ⟨rfl, rfl⟩

theorem staleCheck_congr (T now : Nat) (s s2 : ServerState) (v : Nat)
    (h1 : s2.conns v = s.conns v) (h2 : s2.transports v = s.transports v) :
    staleCheck T now s2 v = staleCheck T now s v := by
  simp [staleCheck, h1, h2]

theorem sweep_clean_mem (T now : Nat) (s : ServerState)
    (hrun : s.isRunning = true) (hnd : s.registry.Nodup) (v : Nat) :
    v ∈ (sweep_pass [] T now s).registry ↔
      (v ∈ s.registry ∧ staleCheck T now s v = false) := by
  rw [sweep_pass_run [] T now s hrun]
  constructor
  · intro h
    refine ⟨evict_loop_mem_registry _ _ _ _ h, ?_⟩
    by_contra hst
    have hst2 : staleCheck T now s v = true := by
      cases hb : staleCheck T now s v with
      | false => exact absurd hb hst
      | true => rfl
    have hv : v ∈ s.registry.filter (staleCheck T now s) :=
      List.mem_filter.mpr ⟨evict_loop_mem_registry _ _ _ _ h, hst2⟩
    exact evict_loop_evicts _ s v hnd hv h
  · rintro ⟨hm, hst⟩
    have hv : v ∉ s.registry.filter (staleCheck T now s) := by
      intro hc
      rw [(List.mem_filter.mp hc).2] at hst
      exact absurd hst (by simp)
    exact (evict_loop_untouched [] _ s v hv).2.2.mpr hm

theorem sweep_clean_closes (T now : Nat) (s : ServerState)
    (hrun : s.isRunning = true) (hnd : s.registry.Nodup) (v : Nat)
    (hm : v ∈ s.registry) (hst : staleCheck T now s v = true) :
    (sweep_pass [] T now s).transports v = true := by
  rw [sweep_pass_run [] T now s hrun]
  exact evict_loop_closes _ s v hnd (List.mem_filter.mpr ⟨hm, hst⟩) hm

theorem foldl_ccc_registry (ws : List Nat) (s : ServerState) :
    (ws.foldl close_client_connection s).registry = s.registry := by
  induction ws generalizing s with
  | nil => rfl
  | cons w rest ih =>
    rw [List.foldl_cons, ih, ccc_registry]

theorem foldl_ccc_isRunning (ws : List Nat) (s : ServerState) :
    (ws.foldl close_client_connection s).isRunning = s.isRunning := by
  induction ws generalizing s with
  | nil => rfl
  | cons w rest ih =>
    rw [List.foldl_cons, ih, ccc_isRunning]

theorem foldl_ccc_serverOpen (ws : List Nat) (s : ServerState) :
    (ws.foldl close_client_connection s).serverOpen = s.serverOpen := by
  induction ws generalizing s with
  | nil => rfl
  | cons w rest ih =>
    rw [List.foldl_cons, ih, ccc_serverOpen]

theorem foldl_ccc_transports_mono (ws : List Nat) (s : ServerState) (v : Nat)
    (h : s.transports v = true) :
    (ws.foldl close_client_connection s).transports v = true := by
  induction ws generalizing s with
  | nil => exact h
  | cons w rest ih =>
    rw [List.foldl_cons]
    exact ih _ (ccc_transports_mono s w v h)

theorem foldl_ccc_closes (ws : List Nat) (s : ServerState) (v : Nat)
    (hv : v ∈ ws) :
    (ws.foldl close_client_connection s).transports v = true := by
  induction ws generalizing s with
  | nil => exact absurd hv (List.not_mem_nil v)
  | cons w rest ih =>
    rw [List.foldl_cons]
    by_cases hvw : v = w
    · subst hvw
      exact foldl_ccc_transports_mono rest _ v (ccc_transports_self s v)
    · have hvr : v ∈ rest := by
        cases List.mem_cons.mp hv with
        | inl h => exact absurd h hvw
        | inr h => exact h
      exact ih _ hvr

theorem rstrip_append_ws (l : List Char) (c : Char) (h : pyIsSpace c = true) :
    rstrip (l ++ [c]) = rstrip l := by
  simp [rstrip, List.dropWhile_cons, h]

theorem rstrip_eq_self (l : List Char)
    (h : l.getLast?.all (fun c => !pyIsSpace c) = true) : rstrip l = l := by
  unfold rstrip
  cases hrev : l.reverse with
  | nil =>
    rw [List.reverse_eq_nil_iff] at hrev
    subst hrev
    rfl
  | cons a tail =>
    have hga : l.getLast? = some a := by
      rw [← List.head?_reverse, hrev]
      rfl
    rw [hga] at h
    have ha : ¬ (pyIsSpace a = true) := by simpa using h
    have hl : l = (a :: tail).reverse := by rw [← hrev, List.reverse_reverse]
    rw [List.dropWhile_cons_of_neg ha]
    rw [hl]

theorem pyStrip_cons_not_ws (c : Char) (l : List Char)
    (h : pyIsSpace c = false) : pyStrip (c :: l) = rstrip (c :: l) := by
  simp [pyStrip, List.dropWhile_cons, h]

/-! The claims, settled. -/

/-- A running server with one registered, freshly active connection on
writer 0 and an open transport. -/
def exEcho : ServerState :=
  { isRunning := true, serverOpen := true, sweeperActive := true,
    registry := [0],
    conns := fun _ =>
      { connectedAt := 0, lastActiveAt := 0,
        state := ConnectionState.connected },
    transports := fun _ => false }

/-- Claim C1, counterexample: the echo is not the identity.  For the
received line `" a\n"` (message text `" a"`, no embedded newline) the
handler writes back `"a\n"`, not `" a\n"`: line 294 computes
`data.decode().strip()`, which also removes the leading space. -/
theorem echo_not_identity :
    (process_messages 300 0 [⟨1, [' ', 'a']⟩] (EndEvent.eof 1) 0
      exEcho).2.1 = [['a', '\n']] ∧
    [['a', '\n']] ≠ [[' ', 'a', '\n']] := by decide

/-- Claim C1, amended: the response written for a received line equals the
line's text with leading and trailing whitespace stripped (Python
`str.strip()`), followed by a single newline; consequently the identity
echo holds exactly for messages with no leading or trailing whitespace
character. -/
theorem echo_identity_for_trimmed (m : List Char)
    (h1 : m.head?.all (fun c => !pyIsSpace c) = true)
    (h2 : m.getLast?.all (fun c => !pyIsSpace c) = true) :
    respFor m = m ++ ['\n'] := by
  cases m with
  | nil => decide
  | cons c m2 =>
    have hc : pyIsSpace c = false := by simpa using h1
    have step1 : pyStrip ((c :: m2) ++ ['\n']) =
        rstrip ((c :: m2) ++ ['\n']) :=
      pyStrip_cons_not_ws c (m2 ++ ['\n']) hc
    unfold respFor
    rw [step1, rstrip_append_ws (c :: m2) '\n' (by decide),
      rstrip_eq_self (c :: m2) h2]

/-- Witness for the amended claim C1 at the message `"hi"`. -/
theorem echo_identity_for_trimmed_witness :
    (['h', 'i'] : List Char).head?.all (fun c => !pyIsSpace c) = true ∧
    respFor ['h', 'i'] = ['h', 'i', '\n'] :=
  ⟨by decide, echo_identity_for_trimmed ['h', 'i'] (by decide) (by decide)⟩

/-- The freshly constructed server (`RediminuteServer.__init__`,
`server.py` lines 74-90): not running, nothing bound, no clients. -/
def initialServer : ServerState :=
  { isRunning := false, serverOpen := false, sweeperActive := false,
    registry := [],
    conns := fun _ =>
      { connectedAt := 0, lastActiveAt := 0,
        state := ConnectionState.connected },
    transports := fun _ => false }

/-- Claim C3, code bug: when the bind fails, `start()` does raise the bind
error and never opens the listener — but `self.is_running = True` is
executed at line 101, before `asyncio.start_server` is awaited, so the
running flag is left set `True` after the `OSError` propagates,
contradicting the claim (and the spec's "do not enter `Running`"). -/
theorem start_bind_failure_leaves_running_flag :
    (start_bind initialServer false).2 = true ∧
    (start_bind initialServer false).1.serverOpen = false ∧
    (start_bind initialServer false).1.isRunning = true := by decide

/-- A running server whose registry already holds writer 7, whose stored
session was last active at time 5. -/
def exDup : ServerState :=
  { isRunning := true, serverOpen := true, sweeperActive := true,
    registry := [7],
    conns := fun _ =>
      { connectedAt := 0, lastActiveAt := 5,
        state := ConnectionState.connected },
    transports := fun _ => false }

/-- Claim C8, counterexample: registering writer 7 again does not fail and
does not leave the existing entry unchanged — line 245 is a plain dict
assignment `self.clients[writer] = ClientConnection(...)`, which silently
replaces the stored session (here its `last_active_at` jumps from 5 to
50); no `DuplicateSession` error exists anywhere in the code. -/
theorem register_duplicate_overwrites :
    (exDup.conns 7).lastActiveAt = 5 ∧
    ((register_client 7 50 exDup).conns 7).lastActiveAt = 50 ∧
    (register_client 7 50 exDup).registry = [7] := by decide

/-- Claim C8, amended: registering a session whose identity already exists
in the registry does not fail — the dict assignment overwrites the stored
entry with the fresh `CONNECTED` session and leaves the key set
unchanged. -/
theorem register_existing_overwrites (s : ServerState) (w now : Nat)
    (hw : w ∈ s.registry) :
    (register_client w now s).registry = s.registry ∧
    (register_client w now s).conns w =
      { connectedAt := now, lastActiveAt := now,
        state := ConnectionState.connected } := by
  refine ⟨register_client_registry_of_mem w now s hw, ?_⟩
  simp [register_client]

/-- Witness for the amended claim C8 at the duplicate registration of
writer 7. -/
theorem register_existing_overwrites_witness :
    7 ∈ exDup.registry ∧
    (register_client 7 50 exDup).registry = exDup.registry ∧
    (register_client 7 50 exDup).conns 7 =
      { connectedAt := 50, lastActiveAt := 50,
        state := ConnectionState.connected } :=
  ⟨by decide, register_existing_overwrites exDup 7 50 (by decide)⟩

theorem stop_drain_registry (s : ServerState) :
    (stop_drain s).registry = [] := rfl

theorem close_all_connected_isRunning (s : ServerState) :
    (close_all_connected s).isRunning = s.isRunning :=
  foldl_ccc_isRunning _ _

theorem stop_drain_isRunning (s : ServerState) :
    (stop_drain s).isRunning = false := by
  show (close_all_connected (stopped_flags s)).isRunning = false
  rw [close_all_connected_isRunning]
  rfl

theorem stop_drain_transports_closed (s : ServerState) (w : Nat)
    (hw : w ∈ s.registry)
    (hdis : (s.conns w).state = ConnectionState.disconnected →
      s.transports w = true) :
    (stop_drain s).transports w = true := by
  show (close_all_connected (stopped_flags s)).transports w = true
  unfold close_all_connected
  cases hst : (s.conns w).state with
  | connected =>
    apply foldl_ccc_closes
    apply List.mem_filter.mpr
    refine ⟨hw, ?_⟩
    show decide (((stopped_flags s).conns w).state =
      ConnectionState.connected) = true
    simp [stopped_flags, hst]
  | disconnected =>
    apply foldl_ccc_transports_mono
    exact hdis hst

/-- A running server with one registered `CONNECTED` client on writer 0. -/
def exStop : ServerState :=
  { isRunning := true, serverOpen := true, sweeperActive := true,
    registry := [0],
    conns := fun _ =>
      { connectedAt := 0, lastActiveAt := 0,
        state := ConnectionState.connected },
    transports := fun _ => false }

/-- Claim C2, counterexample: the listening socket is still accepting
connections in the middle of `stop()`.  `stop()` only calls
`self.server.close()` as its final statement (line 159), after awaiting the
cancellation of the cleanup task and all per-session closes; at each of
those awaits the event loop keeps running the asyncio server's accept
callbacks.  Concretely, after the entire drain phase of `stop()` on a
running one-client server the listener is still open (`canAccept ... =
true`), so "no new connections are accepted after the call begins" fails;
acceptance only stops once the call returns. -/
theorem stop_midcall_still_accepting :
    exStop.isRunning = true ∧
    canAccept (stop_drain exStop) = true ∧
    canAccept (stop exStop) = false := by decide

/-- Claim C2, amended: after `stop()` on a running server RETURNS (rather
than from the moment the call begins), no new connections are accepted (the
listener is closed as the final step); every registered session's transport
is closed — `stop()` itself closes the `CONNECTED` ones, the
`DISCONNECTED` ones were already closed when they were marked, stated here
as the invariant hypothesis — the registry is empty, and the running flag
is cleared.  Per-session close errors are collected by
`asyncio.gather(return_exceptions=True)` rather than propagated. -/
theorem stop_graceful (s : ServerState) (hrun : s.isRunning = true)
    (hinv : ∀ w ∈ s.registry,
      (s.conns w).state = ConnectionState.disconnected →
      s.transports w = true) :
    (stop s).registry = [] ∧
    (stop s).isRunning = false ∧
    canAccept (stop s) = false ∧
    ∀ w ∈ s.registry, (stop s).transports w = true := by
  have hs : stop s = { stop_drain s with serverOpen := false } := by
    simp [stop, hrun]
  rw [hs]
  refine ⟨stop_drain_registry s, stop_drain_isRunning s, rfl, ?_⟩
  intro w hw
  exact stop_drain_transports_closed s w hw (hinv w hw)

/-- Witness for the amended claim C2 at a running one-client server. -/
theorem stop_graceful_witness :
    exStop.isRunning = true ∧
    ((stop exStop).registry = [] ∧
    (stop exStop).isRunning = false ∧
    canAccept (stop exStop) = false ∧
    ∀ w ∈ exStop.registry, (stop exStop).transports w = true) :=
  ⟨rfl, stop_graceful exStop rfl (by decide)⟩

/-- Claim C4: on every exit path of the handler — whatever the trace of
arrivals and whichever way it ends (peer EOF, idle timeout, transport
error, or an exception raised while handling a message, all of which the
loop's `except` arms turn into a `break`) — the `finally` block of
`_handle_client` marks the session `DISCONNECTED`, closes its transport,
and removes its registry entry; and the handler is a total function of its
trace whose effects are confined to its own writer: every other session's
connection object, transport, and registry membership are untouched. -/
theorem handler_always_cleans_up (T w t0 : Nat) (datas : List NetData)
    (e : EndEvent) (s : ServerState) (hnd : s.registry.Nodup) :
    w ∉ (handle_client T w t0 datas e s).1.registry ∧
    (handle_client T w t0 datas e s).1.transports w = true ∧
    ((handle_client T w t0 datas e s).1.conns w).state =
      ConnectionState.disconnected ∧
    ∀ v, v ≠ w →
      (handle_client T w t0 datas e s).1.conns v = s.conns v ∧
      (handle_client T w t0 datas e s).1.transports v = s.transports v ∧
      (v ∈ (handle_client T w t0 datas e s).1.registry ↔
        v ∈ s.registry) := by
  have key : (handle_client T w t0 datas e s).1 =
      close_path
        (process_messages T w datas e t0 (register_client w t0 s)).1 w := rfl
  rw [key]
  have hreg : (process_messages T w datas e t0
      (register_client w t0 s)).1.registry =
      (register_client w t0 s).registry :=
    process_messages_registry T w datas e t0 (register_client w t0 s)
  have hnd2 : (process_messages T w datas e t0
      (register_client w t0 s)).1.registry.Nodup := by
    rw [hreg]
    exact register_client_nodup w t0 s hnd
  have hmem : w ∈ (process_messages T w datas e t0
      (register_client w t0 s)).1.registry := by
    rw [hreg]
    exact register_client_mem w t0 s
  refine ⟨close_path_not_mem _ w hnd2, close_path_transports_self _ w,
    close_path_conns_self_of_mem _ w hmem, ?_⟩
  intro v hv
  refine ⟨?_, ?_, ?_⟩
  · rw [close_path_conns_ne _ w v hv,
      process_messages_conns_ne T w datas e t0 _ v hv]
    exact register_client_conns_ne w t0 v s hv
  · rw [close_path_transports_ne _ w v hv,
      process_messages_transports T w datas e t0 _,
      register_client_transports]
  · rw [close_path_mem_iff_of_ne _ w v hv, hreg]
    exact register_client_mem_iff_of_ne w t0 v s hv

/-- Witness for claim C4: a fresh writer 1 on a server that already has
writer 0 registered, with a trace whose handling raises an exception
(`EndEvent.exc`, the processor-fault case). -/
theorem handler_always_cleans_up_witness :
    exStop.registry.Nodup ∧
    (1 ∉ (handle_client 300 1 0 [⟨1, ['x']⟩] (EndEvent.exc 1)
        exStop).1.registry ∧
    (handle_client 300 1 0 [⟨1, ['x']⟩] (EndEvent.exc 1)
        exStop).1.transports 1 = true ∧
    ((handle_client 300 1 0 [⟨1, ['x']⟩] (EndEvent.exc 1)
        exStop).1.conns 1).state = ConnectionState.disconnected ∧
    ∀ v, v ≠ 1 →
      (handle_client 300 1 0 [⟨1, ['x']⟩] (EndEvent.exc 1)
        exStop).1.conns v = exStop.conns v ∧
      (handle_client 300 1 0 [⟨1, ['x']⟩] (EndEvent.exc 1)
        exStop).1.transports v = exStop.transports v ∧
      (v ∈ (handle_client 300 1 0 [⟨1, ['x']⟩] (EndEvent.exc 1)
        exStop).1.registry ↔ v ∈ exStop.registry)) :=
  ⟨by decide,
    handler_always_cleans_up 300 1 0 [⟨1, ['x']⟩] (EndEvent.exc 1) exStop
      (by decide)⟩

/-- A running server with two registered clients: writer 0 already
`DISCONNECTED` (stale), writer 1 `CONNECTED` and active at time 10. -/
def exSweep : ServerState :=
  { isRunning := true, serverOpen := true, sweeperActive := true,
    registry := [0, 1],
    conns := fun v =>
      if v = 0 then
        { connectedAt := 0, lastActiveAt := 0,
          state := ConnectionState.disconnected }
      else
        { connectedAt := 0, lastActiveAt := 10,
          state := ConnectionState.connected },
    transports := fun _ => false }

/-- Claim C5: a sweep pass (with no eviction faults) removes a registry
entry if and only if the scan found it stale — `DISCONNECTED`, or idle
strictly longer than `idle_timeout`, or its transport already closing —
and every stale entry's transport is closed by the eviction; entries
satisfying none of the conditions stay registered. -/
theorem sweeper_evicts_iff_stale (T now : Nat) (s : ServerState)
    (hrun : s.isRunning = true) (hnd : s.registry.Nodup) :
    (∀ v, v ∈ (sweep_pass [] T now s).registry ↔
      (v ∈ s.registry ∧ staleCheck T now s v = false)) ∧
    ∀ v ∈ s.registry, staleCheck T now s v = true →
      (sweep_pass [] T now s).transports v = true :=
  ⟨fun v => sweep_clean_mem T now s hrun hnd v,
    fun v hv hst => sweep_clean_closes T now s hrun hnd v hv hst⟩

/-- Witness for claim C5 at `exSweep` with `idle_timeout = 300`, `now =
20`: writer 0 is stale (`DISCONNECTED`), writer 1 is not. -/
theorem sweeper_evicts_iff_stale_witness :
    exSweep.isRunning = true ∧
    ((∀ v, v ∈ (sweep_pass [] 300 20 exSweep).registry ↔
      (v ∈ exSweep.registry ∧ staleCheck 300 20 exSweep v = false)) ∧
    ∀ v ∈ exSweep.registry, staleCheck 300 20 exSweep v = true →
      (sweep_pass [] 300 20 exSweep).transports v = true) :=
  ⟨rfl, sweeper_evicts_iff_stale 300 20 exSweep rfl (by decide)⟩

theorem process_messages_rolling_aux (T w g : Nat) (datas : List NetData) :
    ∀ (t0 : Nat) (s : ServerState), s.isRunning = true →
    (∀ d ∈ datas, d.gap ≤ T) → g ≤ T →
    (process_messages T w datas (EndEvent.eof g) t0 s).2.2 =
      ExitReason.eof ∧
    (process_messages T w datas (EndEvent.eof g) t0 s).2.1.length =
      datas.length := by
  induction datas with
  | nil =>
    intro t0 s hrun hd hg
    have hng : ¬ T < g := Nat.not_lt.mpr hg
    simp [process_messages, hrun, end_case, hng]
  | cons d rest ih =>
    intro t0 s hrun hd hg
    have hdg : ¬ T < d.gap := Nat.not_lt.mpr (hd d (List.mem_cons_self d rest))
    have hrest : ∀ x ∈ rest, x.gap ≤ T := fun x hx =>
      hd x (List.mem_cons_of_mem d hx)
    have hrun2 : (update_activity w (t0 + d.gap) s).isRunning = true := by
      rw [update_activity_isRunning]
      exact hrun
    obtain ⟨ih1, ih2⟩ :=
      ih (t0 + d.gap) (update_activity w (t0 + d.gap) s) hrun2 hrest hg
    constructor
    · simp only [process_messages, hrun, if_true, hdg, if_false]
      exact ih1
    · simp only [process_messages, hrun, if_true, hdg, if_false,
        List.length_cons]
      rw [ih2]

/-- Claim C6: the read deadline is rolling, not absolute.  Each wait for
the next line is a fresh `asyncio.wait_for(readline, idle_timeout)`
(line 281), so a session whose every inter-arrival gap is at most
`idle_timeout` is never timed out — for any number of messages, hence for
arbitrarily large total connection lifetime — and exits only through the
peer's own EOF, with every message answered. -/
theorem rolling_timeout_never_expires (T w t0 g : Nat)
    (datas : List NetData) (s : ServerState) (hrun : s.isRunning = true)
    (hd : ∀ d ∈ datas, d.gap ≤ T) (hg : g ≤ T) :
    (process_messages T w datas (EndEvent.eof g) t0 s).2.2 =
      ExitReason.eof ∧
    (process_messages T w datas (EndEvent.eof g) t0 s).2.1.length =
      datas.length :=
  process_messages_rolling_aux T w g datas t0 s hrun hd hg

/-- Witness for claim C6: timeout 2, three messages with gaps 1, 2, 2 and a
final EOF gap 1 — total connection lifetime 6, strictly more than the
idle timeout of 2 — still exits with `eof` and answers all three. -/
theorem rolling_timeout_never_expires_witness :
    (∀ d ∈ [(⟨1, ['a']⟩ : NetData), ⟨2, ['b']⟩, ⟨2, ['c']⟩], d.gap ≤ 2) ∧
    ((process_messages 2 0 [⟨1, ['a']⟩, ⟨2, ['b']⟩, ⟨2, ['c']⟩]
        (EndEvent.eof 1) 0 exEcho).2.2 = ExitReason.eof ∧
    (process_messages 2 0 [⟨1, ['a']⟩, ⟨2, ['b']⟩, ⟨2, ['c']⟩]
        (EndEvent.eof 1) 0 exEcho).2.1.length =
      ([(⟨1, ['a']⟩ : NetData), ⟨2, ['b']⟩, ⟨2, ['c']⟩]).length) :=
  ⟨by decide,
    rolling_timeout_never_expires 2 0 0 1
      [⟨1, ['a']⟩, ⟨2, ['b']⟩, ⟨2, ['c']⟩] exEcho rfl (by decide)
      (by decide)⟩

theorem close_path_registry_of_mem (s : ServerState) (w : Nat)
    (hw : w ∈ s.registry) :
    (close_path s w).registry = s.registry.erase w := by
  have hm : w ∈ (close_client_connection s w).registry := by
    rw [ccc_registry]
    exact hw
  show (unregister_client (close_client_connection s w) w).registry =
    s.registry.erase w
  unfold unregister_client
  rw [if_pos hm, ccc_registry]

/-- Claim C7: the close path (`_close_client_connection` + guarded
removal, as run by the handler's `finally` and by each Sweeper eviction)
is idempotent.  A second invocation is a no-op, not an error: the first
leaves the session `DISCONNECTED` with its registry entry removed — exactly
one entry, the registry shrinks by exactly one — and the second finds the
transport already closing and the key absent, changing nothing;
unregistering an id that is already absent is likewise the identity. -/
theorem close_path_idempotent (s : ServerState) (w : Nat)
    (hw : w ∈ s.registry) (hnd : s.registry.Nodup) :
    close_path (close_path s w) w = close_path s w ∧
    ((close_path s w).conns w).state = ConnectionState.disconnected ∧
    w ∉ (close_path s w).registry ∧
    (close_path s w).registry.length + 1 = s.registry.length ∧
    unregister_client (close_path s w) w = close_path s w := by
  have h1 : (close_path s w).transports w = true :=
    close_path_transports_self s w
  have h2 : w ∉ (close_path s w).registry := close_path_not_mem s w hnd
  have hsecond : unregister_client (close_path s w) w = close_path s w :=
    unregister_client_of_not_mem _ w h2
  refine ⟨?_, close_path_conns_self_of_mem s w hw, h2, ?_, hsecond⟩
  · show unregister_client
      (close_client_connection (close_path s w) w) w = close_path s w
    rw [ccc_eq_self _ w h1 h2]
    exact hsecond
  · rw [close_path_registry_of_mem s w hw, List.length_erase_of_mem hw]
    have := List.length_pos_of_mem hw
    omega

/-- Witness for claim C7 at the one-client server `exDup` and writer 7. -/
theorem close_path_idempotent_witness :
    7 ∈ exDup.registry ∧
    (close_path (close_path exDup 7) 7 = close_path exDup 7 ∧
    ((close_path exDup 7).conns 7).state = ConnectionState.disconnected ∧
    7 ∉ (close_path exDup 7).registry ∧
    (close_path exDup 7).registry.length + 1 = exDup.registry.length ∧
    unregister_client (close_path exDup 7) 7 = close_path exDup 7) :=
  ⟨by decide, close_path_idempotent exDup 7 (by decide) (by decide)⟩

/-- A running server with two registered, already-`DISCONNECTED` (hence
stale) clients on writers 0 and 1. -/
def exFault : ServerState :=
  { isRunning := true, serverOpen := true, sweeperActive := true,
    registry := [0, 1],
    conns := fun _ =>
      { connectedAt := 0, lastActiveAt := 0,
        state := ConnectionState.disconnected },
    transports := fun _ => false }

/-- Claim C9, counterexample: a per-session eviction error does NOT let the
Sweeper continue to the next snapshot entry of the same pass.  The
`try/except Exception` of `_periodic_cleanup` wraps the whole pass (lines
172-205), not the per-entry body, so an exception raised while evicting
writer 0 abandons the rest of the eviction loop: the equally stale writer
1 is still registered when the pass ends. -/
theorem sweep_error_abandons_rest_of_pass :
    staleCheck 300 0 exFault 1 = true ∧
    1 ∈ exFault.registry ∧
    1 ∈ (sweep_pass [0] 300 0 exFault).registry := by decide

/-- Claim C9, amended: an error raised while evicting a snapshot entry is
caught by the pass-level handler, abandoning the remaining entries of that
pass, but it never terminates the sweeper loop or the process: the `while`
loop catches it, logs, and runs the next pass — and a subsequent fault-free
pass leaves registered exactly the entries that were not stale. -/
theorem sweeper_survives_eviction_error (faults : List Nat) (T now : Nat)
    (s : ServerState) (hrun : s.isRunning = true)
    (hnd : s.registry.Nodup) :
    ∀ v, v ∈ (sweep_pass [] T now (sweep_pass faults T now s)).registry ↔
      (v ∈ s.registry ∧ staleCheck T now s v = false) := by
  intro v
  have hrun1 : (sweep_pass faults T now s).isRunning = true := by
    rw [sweep_pass_isRunning]
    exact hrun
  have hnd1 := sweep_pass_nodup faults T now s hnd
  rw [sweep_clean_mem T now _ hrun1 hnd1 v]
  constructor
  · rintro ⟨hm1, hst1⟩
    refine ⟨sweep_pass_mem_registry faults T now s v hm1, ?_⟩
    obtain ⟨hc, ht⟩ :=
      sweep_pass_survivor_untouched faults T now s v hnd hm1
    rw [← staleCheck_congr T now s _ v hc ht]
    exact hst1
  · rintro ⟨hm, hst⟩
    have hnin : v ∉ s.registry.filter (staleCheck T now s) := by
      intro hcon
      rw [(List.mem_filter.mp hcon).2] at hst
      exact absurd hst (by simp)
    have hunt := evict_loop_untouched faults
      (s.registry.filter (staleCheck T now s)) s v hnin
    rw [sweep_pass_run faults T now s hrun]
    refine ⟨hunt.2.2.mpr hm, ?_⟩
    rw [staleCheck_congr T now s _ v hunt.1 hunt.2.1]
    exact hst

/-- Witness for the amended claim C9 at `exFault`: a pass whose eviction of
writer 0 faults, followed by a fault-free pass, evicts both stale
entries. -/
theorem sweeper_survives_eviction_error_witness :
    exFault.isRunning = true ∧
    ∀ v, v ∈ (sweep_pass [] 300 0 (sweep_pass [0] 300 0 exFault)).registry ↔
      (v ∈ exFault.registry ∧ staleCheck 300 0 exFault v = false) :=
  ⟨rfl, sweeper_survives_eviction_error [0] 300 0 exFault rfl (by decide)⟩

/-- Claim C10: a received line consisting of only the delimiter — `readline`
returns `b"\n"`, which is truthy, so the `if not data: break` EOF test at
line 286 does not fire — is handled as an ordinary message: the handler
echoes back an empty line (`"".strip()` then `"\n"`) and the loop
continues with the rest of the trace exactly as it would from the next
iteration; an empty read (`b""`, true EOF) is what terminates the loop
through the EOF branch. -/
theorem bare_newline_is_message (T w t0 g : Nat) (rest : List NetData)
    (e : EndEvent) (s : ServerState) (hrun : s.isRunning = true)
    (hg : ¬ T < g) :
    (process_messages T w (⟨g, []⟩ :: rest) e t0 s).2.1 =
      ['\n'] :: (process_messages T w rest e (t0 + g)
        (update_activity w (t0 + g) s)).2.1 ∧
    (process_messages T w (⟨g, []⟩ :: rest) e t0 s).2.2 =
      (process_messages T w rest e (t0 + g)
        (update_activity w (t0 + g) s)).2.2 ∧
    (process_messages T w [] (EndEvent.eof g) t0 s).2.2 =
      ExitReason.eof := by
  have hresp : respFor [] = ['\n'] := by decide
  refine ⟨?_, ?_, ?_⟩
  · simp only [process_messages, hrun, if_true, hg, if_false, hresp]
  · simp only [process_messages, hrun, if_true, hg, if_false]
  · simp [process_messages, hrun, end_case, hg]

/-- Witness for claim C10: a bare newline then EOF on a running server. -/
theorem bare_newline_is_message_witness :
    exEcho.isRunning = true ∧
    ((process_messages 300 0 [⟨1, []⟩] (EndEvent.eof 2) 0 exEcho).2.1 =
      ['\n'] :: (process_messages 300 0 [] (EndEvent.eof 2) (0 + 1)
        (update_activity 0 (0 + 1) exEcho)).2.1 ∧
    (process_messages 300 0 [⟨1, []⟩] (EndEvent.eof 2) 0 exEcho).2.2 =
      (process_messages 300 0 [] (EndEvent.eof 2) (0 + 1)
        (update_activity 0 (0 + 1) exEcho)).2.2 ∧
    (process_messages 300 0 [] (EndEvent.eof 1) 0 exEcho).2.2 =
      ExitReason.eof) :=
  ⟨rfl, bare_newline_is_message 300 0 0 1 [] (EndEvent.eof 2) exEcho rfl
    (by decide)⟩

end Rediminute
